import Mathlib

/-!
Verification development for the aleph-vm guest agent.

This file gives a shallow embedding of the guest control agent
(runtimes/aleph-alpine-3.13-python/init1.py) and of the cache endpoints of the
guest API sidecar (guest_api/__main__.py), together with theorems about the
protocol and dispatch properties of that code.

Modelling conventions:
- byte strings are lists of natural numbers (one per byte);
- the socket transport is explicit: the bytes the peer will ever send are a
  list, and a schedule function describes how the transport fragments them
  into successive recv results (at least one byte per call while data is
  pending; an exhausted list models a peer that has closed the connection, for
  which recv returns the empty byte string);
- external effectful collaborators (the msgpack library, the filesystem, the
  Python import machinery, subprocesses, the HTTP client, redis) appear as
  explicit environment records of pure functions, and raised exceptions are
  Except values;
- msgpack frames written back to the host are modelled by their decoded shape
  rather than their serialized bytes.
-/

namespace AlephVM

/-- A byte string, one natural number per byte. -/
abbrev Bytes := List Nat

/-- ASCII bytes of a string (str.encode in Python). -/
def strBytes (s : String) : Bytes := s.toList.map Char.toNat


/-! ### Configuration data model (init1.py dataclasses) -/

/-- The Volume dataclass: a declarative mount descriptor. -/
structure Volume where
  mount : String
  device : String
  read_only : Bool
deriving DecidableEq, Repr

/-- The ConfigurationPayload dataclass. The encoding and interface fields are
modelled as strings: the values arrive from the msgpack map as plain strings
and the dataclass constructor performs no coercion to the str-valued enums,
so the runtime comparisons in the code are string comparisons against the
enum values plain, zip, squashfs, asgi, executable. -/
structure ConfigurationPayload where
  code : Bytes
  encoding : String
  entrypoint : String
  input_data : Bytes
  interface : String
  vm_hash : String
  ip : Option String := none
  route : Option String := none
  dns_servers : List String := []
  volumes : List Volume := []
  «variables» : Option (List (String × String)) := none
deriving DecidableEq, Repr

/-- The map produced by msgpack.loads of the configuration bytes, as consumed
by load_configuration. A field holds none exactly when the corresponding key
is absent from the decoded map (the binary decoding of the map itself is
msgpack library code, modelled as already performed; each volumes entry is
likewise already decoded into a Volume record). -/
structure RawConfig where
  code : Option Bytes := none
  encoding : Option String := none
  entrypoint : Option String := none
  input_data : Option Bytes := none
  interface : Option String := none
  vm_hash : Option String := none
  ip : Option String := none
  route : Option String := none
  dns_servers : Option (List String) := none
  volumes : Option (List Volume) := none
  «variables» : Option (List (String × String)) := none
deriving DecidableEq, Repr

/-- load_configuration: reindexes the volumes key through the Volume
constructor, then calls the ConfigurationPayload constructor with the map as
keyword arguments. msg_.get of an absent volumes key yields None and the list
comprehension over None raises TypeError; an absent required dataclass field
makes the constructor raise TypeError. -/
def load_configuration (m : RawConfig) : Except String ConfigurationPayload :=
  match m.volumes with
  | none => .error "TypeError: NoneType object is not iterable"
  | some vols =>
    match m.code, m.encoding, m.entrypoint, m.input_data, m.interface, m.vm_hash with
    | some c, some enc, some ep, some ind, some itf, some vh =>
      .ok { code := c, encoding := enc, entrypoint := ep, input_data := ind,
            interface := itf, vm_hash := vh, ip := m.ip, route := m.route,
            dns_servers := m.dns_servers.getD [], volumes := vols,
            «variables» := m.«variables» }
    | _, _, _, _, _, _ => .error "TypeError: missing required argument"


/-! ### Length-prefixed configuration codec (receive_data_length, receive_config)

client.recv(1) returns exactly the next pending byte, or the empty byte string
when the peer has closed and nothing is pending. client.recv(1024 * 1024)
returns the next chunk the transport chose to deliver, capped at the argument
and at what is pending. -/

/-- One client.recv call with capacity cap, where the transport has chosen to
deliver n bytes this time: the result and the remaining pending bytes. -/
def recvChunk (cap n : Nat) (pending : Bytes) : Bytes × Bytes :=
  (pending.take (min cap n), pending.drop (min cap n))

/-- The bounded header loop of receive_data_length: at most k iterations, each
reading one byte with client.recv(1); a newline byte (10) stops the loop and
is consumed, any other byte is appended to the buffer; an exhausted stream
gives an empty recv result, which is not a newline and appends nothing.
Returns the accumulated buffer and the bytes left pending. -/
def rdlLoop : Nat → Bytes → Bytes → Bytes × Bytes
  | 0, buffer, pending => (buffer, pending)
  | k+1, buffer, pending =>
    match pending with
    | [] => rdlLoop k buffer []
    | b :: rest => if b = 10 then (buffer, rest) else rdlLoop k (buffer ++ [b]) rest

/-- ASCII decimal digit test. -/
def isDigit (b : Nat) : Bool := 48 ≤ b && b ≤ 57

/-- Decimal value of a digit buffer. -/
def digitsVal (buffer : Bytes) : Nat :=
  buffer.foldl (fun acc b => 10 * acc + (b - 48)) 0

/-- Python int(buffer) on the protocol alphabet: a nonempty all-digit buffer
parses to its decimal value, anything else raises ValueError. -/
def parseDecimal (buffer : Bytes) : Except String Nat :=
  if buffer ≠ [] ∧ buffer.all isDigit = true then .ok (digitsVal buffer)
  else .error "ValueError: invalid literal for int with base 10"

/-- receive_data_length: run the 9-iteration header loop, then int(buffer).
Returns the parse result together with the bytes still pending. -/
def receive_data_length (pending : Bytes) : Except String Nat × Bytes :=
  let r := rdlLoop 9 [] pending
  (parseDecimal r.fst, r.snd)

/-- The body accumulation loop of receive_config: while len(data) < length,
data += client.recv(1024 * 1024). sched k is the chunk size the transport
chooses for the k-th recv call; fuel bounds how many iterations are modelled,
with none meaning the loop has not finished within that many iterations (the
loop in the code is unbounded). -/
def rcLoop (sched : Nat → Nat) (length : Nat) :
    Nat → Nat → Bytes → Bytes → Option (Bytes × Bytes)
  | 0, _, _, _ => none
  | fuel+1, k, data, pending =>
    if data.length < length then
      let c := recvChunk (1024 * 1024) (sched k) pending
      rcLoop sched length fuel (k+1) (data ++ c.fst) c.snd
    else some (data, pending)

/-- receive_config up to (but not including) load_configuration: read the
length header, then accumulate exactly that many body bytes. Returns the
accumulated data and the bytes still pending, or an inner none when the
accumulation loop did not finish within fuel iterations. -/
def receive_config_bytes (sched : Nat → Nat) (fuel : Nat) (pending : Bytes) :
    Except String (Option (Bytes × Bytes)) :=
  match receive_data_length pending with
  | (.error e, _) => .error e
  | (.ok length, rest) => .ok (rcLoop sched length fuel 0 [] rest)


/-! ### setup_network -/

/-- An observable effect of setup_network: a system(...) shell command, or the
write of /etc/resolv.conf with the given lines. -/
inductive NetEffect
  | cmd (command : String)
  | writeResolvConf (lines : List String)
deriving DecidableEq, Repr

/-- Python truthiness of an optional string: None and the empty string are
falsy. -/
def optTruthy : Option String → Bool
  | none => false
  | some s => !(s == "")

/-- The three loopback commands issued by setup_network. -/
def loopbackCmds : List NetEffect :=
  [.cmd "ip addr add 127.0.0.1/8 dev lo brd + scope host",
   .cmd "ip addr add ::1/128 dev lo",
   .cmd "ip link set lo up"]

/-- setup_network as the list of effects it performs, in order. eth0Exists
models os.path.exists of /sys/class/net/eth0. The function returns early,
performing nothing, when eth0 is absent, and again when the supplied ip is
falsy; only then are loopback and eth0 configured, the default route added
when a route is supplied, and resolv.conf written (one nameserver line per
configured server, in order). -/
def setup_network (eth0Exists : Bool) (ip : Option String) (route : Option String)
    (dns_servers : List String) : List NetEffect :=
  if !eth0Exists then []
  else if !(optTruthy ip) then []
  else
    loopbackCmds ++
    [.cmd ("ip addr add " ++ ip.getD "" ++ "/24 dev eth0"),
     .cmd "ip link set eth0 up"] ++
    (if optTruthy route then
      [.cmd ("ip route add default via " ++ route.getD "" ++ " dev eth0")]
     else []) ++
    [.writeResolvConf (dns_servers.map (fun server => "nameserver " ++ server))]


/-! ### Code loader (setup_code, setup_code_asgi, setup_code_executable) -/

/-- The effectful collaborators of the code loader: the filesystem state after
any extraction step, the import machinery, and exec of plain source. A none
result models the corresponding raised exception (ImportError or
AttributeError for the import walk, KeyError for the locals lookup). -/
structure CodeEnv where
  isfile : String → Bool
  importResolve : String → String → Option String
  execPlain : Bytes → String → Option String

/-- A runnable unit: an in-process application reference or a spawned
subprocess on a path. -/
inductive Handle
  | app (a : String)
  | process (path : String)
deriving DecidableEq, Repr

/-- entrypoint.split(":", 1) unpacked into module and symbol: the text before
the first colon and everything after it; an entrypoint without a colon makes
the two-name unpacking raise ValueError, modelled as none. -/
def splitCharList : List Char → Option (List Char × List Char)
  | [] => none
  | c :: rest =>
    if c = ':' then some ([], rest)
    else
      match splitCharList rest with
      | none => none
      | some pr => some (c :: pr.fst, pr.snd)

/-- splitColon lifts splitCharList to strings. -/
def splitColon (ep : String) : Option (String × String) :=
  match splitCharList ep.toList with
  | none => none
  | some pr => some (pr.fst.asString, pr.snd.asString)

/-- setup_code_asgi: squashfs and zip resolve entrypoint as module:symbol via
an import plus the dotted attribute walk; plain executes the source, taking the
entrypoint from the resulting locals; any other encoding raises ValueError. -/
def setup_code_asgi (env : CodeEnv) (code : Bytes) (encoding : String)
    (entrypoint : String) : Except String Handle :=
  if encoding = "squashfs" then
    match splitColon entrypoint with
    | none => .error "ValueError: not enough values to unpack"
    | some mn =>
      match env.importResolve mn.fst mn.snd with
      | some a => .ok (.app a)
      | none => .error "ImportError"
  else if encoding = "zip" then
    match splitColon entrypoint with
    | none => .error "ValueError: not enough values to unpack"
    | some mn =>
      match env.importResolve mn.fst mn.snd with
      | some a => .ok (.app a)
      | none => .error "ImportError"
  else if encoding = "plain" then
    match env.execPlain code entrypoint with
    | some a => .ok (.app a)
    | none => .error "KeyError"
  else .error ("Unknown encoding " ++ encoding)

/-- setup_code_executable: squashfs expects the entrypoint under the
pre-mounted /opt/code, zip extracts into /opt first, both failing with
FileNotFoundError when the path is missing afterwards; plain writes the code
bytes to a fixed path itself. The surviving path is chmod-ed and spawned with
subprocess.Popen. -/
def setup_code_executable (env : CodeEnv) (code : Bytes) (encoding : String)
    (entrypoint : String) : Except String Handle :=
  if encoding = "squashfs" then
    let path := "/opt/code/" ++ entrypoint
    if !(env.isfile path) then .error ("FileNotFoundError: No such file: " ++ path)
    else .ok (.process path)
  else if encoding = "zip" then
    let path := "/opt/" ++ entrypoint
    if !(env.isfile path) then .error ("FileNotFoundError: No such file: " ++ path)
    else .ok (.process path)
  else if encoding = "plain" then
    let path := "/opt/executable " ++ entrypoint
    .ok (.process path)
  else .error ("Unknown encoding " ++ encoding ++ ". This should never happen.")

/-- setup_code dispatches on the interface. -/
def setup_code (env : CodeEnv) (code : Bytes) (encoding : String)
    (entrypoint : String) (interface : String) : Except String Handle :=
  if interface = "asgi" then setup_code_asgi env code encoding entrypoint
  else if interface = "executable" then setup_code_executable env code encoding entrypoint
  else .error "Invalid interface. This should never happen."

/-- The setup acknowledgment frame main sends after setup_code: success True
on a runnable handle, success False with the error text (and a traceback,
not modelled) on a raised exception. -/
structure SetupAck where
  success : Bool
  error : Option String
deriving DecidableEq, Repr

/-- The acknowledgment main sends for a setup_code outcome. -/
def setup_ack (r : Except String Handle) : SetupAck :=
  match r with
  | .ok _ => { success := true, error := none }
  | .error e => { success := false, error := some e }


/-! ### Reverse-proxy bridge retry loop (run_executable_http) -/

/-- Outcome of the run_executable_http retry loop: how many connection
attempts were made in total, how many asyncio.sleep(0.05) calls separated
them, and whether the loop ended in a response (true) or in the connection
error of the last attempt propagating (false). -/
structure HttpResult where
  attempts : Nat
  sleeps : Nat
  ok : Bool
deriving DecidableEq, Repr

/-- The retry loop of run_executable_http. avail t tells whether the t-th
connection attempt reaches the subprocess port (a false value models
make_request raising ClientConnectorError). tries mirrors the tries counter,
incremented before each attempt; a failed attempt with tries > 20 re-raises,
otherwise the loop sleeps 50 ms and retries. -/
def runHttpLoop (avail : Nat → Bool) (tries sleeps : Nat) : HttpResult :=
  if avail (tries + 1) then { attempts := tries + 1, sleeps := sleeps, ok := true }
  else if tries + 1 > 20 then { attempts := tries + 1, sleeps := sleeps, ok := false }
  else runHttpLoop avail (tries + 1) (sleeps + 1)
termination_by 21 - tries
decreasing_by omega

/-- run_executable_http starts the loop with tries = 0 and no sleeps yet. -/
def run_executable_http (avail : Nat → Bool) : HttpResult :=
  runHttpLoop avail 0 0


/-! ### Instruction dispatcher (process_instruction, handle_instruction) -/

/-- One response frame written back on the control connection: raw bytes (the
shell output or the STOP acknowledgment), the msgpack success result map, or
the msgpack error result map. -/
inductive Frame
  | raw (b : Bytes)
  | result (headers : String) (body : String) (output : String) (output_data : Option Bytes)
  | errorFrame (error : String) (traceback : String) (output : Option String)
deriving DecidableEq, Repr

/-- The tuple an execution bridge returns: headers, body, captured output,
and the optional output archive. Headers and body are abstract (their
structure is produced by the bridge, not inspected by the dispatcher). -/
structure ExecTuple where
  headers : String
  body : String
  output : String
  output_data : Option Bytes
deriving DecidableEq, Repr

/-- The effectful collaborators of process_instruction. loadRunCode is
msgpack.loads of the instruction bytes followed by the RunCodePayload
constructor, yielding the scope (abstracted to an identifier); an .error
models the raised decode exception. shell is subprocess.check_output, whose
CalledProcessError carries its text and the partial output. decodeUtf8 is
bytes.decode of a shell line. runAsgi and runExec are the two bridges, whose
.error models any exception escaping them. trace is traceback.format_exc for
the exception currently handled. -/
structure DispatchEnv where
  loadRunCode : Bytes → Except String String
  shell : String → Except (String × Bytes) Bytes
  decodeUtf8 : Bytes → Except String String
  runAsgi : String → Except String ExecTuple
  runExec : String → Except String ExecTuple
  trace : String → String

/-- The literal halt instruction bytes. -/
def haltBytes : Bytes := [104, 97, 108, 116]

/-- The bytes of the STOP acknowledgment frame, b"STOP" plus newline. -/
def stopBytes : Bytes := [83, 84, 79, 80, 10]

/-- The interface dispatch inside the try block of process_instruction: an
unknown interface raises ValueError inside the same try, so it surfaces as a
caught bridge error. -/
def bridgeRun (env : DispatchEnv) (interface : String) (scope : String) :
    Except String ExecTuple :=
  if interface = "asgi" then env.runAsgi scope
  else if interface = "executable" then env.runExec scope
  else .error "Unknown interface. This should never happen"

/-- The outcome of process_instruction on one instruction: the frames written
back, whether system sync ran, whether sys.exit was requested, and the
exception, if any, that escaped the dispatch layer uncaught. -/
structure InstrResult where
  frames : List Frame
  sync : Bool
  exits : Bool
  uncaught : Option String
deriving DecidableEq, Repr

/-- process_instruction. The halt literal syncs, yields the STOP frame and
exits. A leading exclamation mark byte (33) runs the remainder as a shell
line, with CalledProcessError answered by a frame of the error text, a
newline, and the captured output. Anything else is decoded as a
RunCodePayload OUTSIDE the try block, so a decode failure escapes uncaught;
after a successful decode the bridge dispatch runs inside the try block and
any exception there becomes an error frame carrying the message, the
formatted traceback, and the output variable, which is still None when the
bridge raised before returning. -/
def process_instruction (env : DispatchEnv) (interface : String)
    (instruction : Bytes) : InstrResult :=
  if instruction = haltBytes then
    { frames := [.raw stopBytes], sync := true, exits := true, uncaught := none }
  else if instruction.head? = some 33 then
    match env.decodeUtf8 (instruction.drop 1) with
    | .error e => { frames := [], sync := false, exits := false, uncaught := some e }
    | .ok msg =>
      match env.shell msg with
      | .ok out =>
        { frames := [.raw out], sync := false, exits := false, uncaught := none }
      | .error eo =>
        { frames := [.raw (strBytes eo.fst ++ [10] ++ eo.snd)],
          sync := false, exits := false, uncaught := none }
  else
    match env.loadRunCode instruction with
    | .error e => { frames := [], sync := false, exits := false, uncaught := some e }
    | .ok scope =>
      match bridgeRun env interface scope with
      | .ok t =>
        { frames := [.result t.headers t.body t.output t.output_data],
          sync := false, exits := false, uncaught := none }
      | .error e =>
        { frames := [.errorFrame e (env.trace e) none],
          sync := false, exits := false, uncaught := none }

/-- The sequence of instruction outcomes over a session: handle_instruction
services one instruction per accepted connection, strictly sequentially on
the single event loop, and a sys.exit from the halt branch terminates the
agent so that no later instruction is ever processed. -/
def run_session (env : DispatchEnv) (interface : String) : List Bytes → List InstrResult
  | [] => []
  | i :: rest =>
    let r := process_instruction env interface i
    if r.exits then [r] else r :: run_session env interface rest


/-! ### Guest API cache endpoints (guest_api/__main__.py) -/

/-- ASCII word byte, the byte-level model of the regex class backslash-w:
digits, uppercase letters, underscore, lowercase letters. -/
def wordByte (b : Nat) : Bool :=
  (48 ≤ b && b ≤ 57) || (65 ≤ b && b ≤ 90) || b = 95 || (97 ≤ b && b ≤ 122)

/-- A nonempty all-word-byte string. -/
def coreWordMatch (l : Bytes) : Bool := !l.isEmpty && l.all wordByte

/-- re.match of the anchored word pattern against the key, with Python
semantics for the end anchor: it also matches just before one final
newline, so a key of word bytes followed by one trailing newline matches. -/
def matchesWordKey (key : Bytes) : Bool :=
  coreWordMatch key || (key.getLast? == some 10 && coreWordMatch key.dropLast)

/-- The redis store as seen through the handlers: get on the prefixed key. -/
structure CacheStore where
  get : Bytes → Option Bytes

/-- Outcome of a cache handler: the HTTP status and whether the backing store
was reached. -/
structure CacheResponse where
  status : Nat
  storeAccessed : Bool
deriving DecidableEq, Repr

/-- get_from_cache: invalid key syntax is 400 before any store access; then
the prefixed key is fetched, a falsy body (absent key, or an empty stored
value) giving 404 and anything else 200. -/
def get_from_cache (pfx : Bytes) (store : CacheStore) (key : Bytes) : CacheResponse :=
  if !(matchesWordKey key) then { status := 400, storeAccessed := false }
  else
    match store.get (pfx ++ [58] ++ key) with
    | some body =>
      if body.isEmpty then { status := 404, storeAccessed := true }
      else { status := 200, storeAccessed := true }
    | none => { status := 404, storeAccessed := true }

/-- put_in_cache: invalid key syntax is 400 before any store access; a valid
key is written with the 7-day expiry and answered with json_response (200). -/
def put_in_cache (pfx : Bytes) (key : Bytes) : CacheResponse :=
  if !(matchesWordKey key) then { status := 400, storeAccessed := false }
  else { status := 200, storeAccessed := true }

/-- delete_from_cache: invalid key syntax is 400 before any store access; a
valid key is deleted and the count answered with json_response (200). -/
def delete_from_cache (pfx : Bytes) (key : Bytes) : CacheResponse :=
  if !(matchesWordKey key) then { status := 400, storeAccessed := false }
  else { status := 200, storeAccessed := true }


/-! ### Concrete instances used by individual results -/

/-- A dispatch environment whose instruction decode always raises, as msgpack
does on bytes that are not a valid RunCodePayload map (0xc1 is the msgpack
byte that never appears in well-formed data). -/
def envDecodeFail : DispatchEnv :=
  { loadRunCode := fun _ => .error "msgpack unpack error",
    shell := fun _ => .ok [],
    decodeUtf8 := fun _ => .ok "",
    runAsgi := fun _ => .ok { headers := "", body := "", output := "", output_data := none },
    runExec := fun _ => .ok { headers := "", body := "", output := "", output_data := none },
    trace := fun e => "Traceback: " ++ e }

/-- A dispatch environment whose decode succeeds, whose in-process bridge
answers, and whose reverse-proxy bridge raises a connection error. -/
def envBridge : DispatchEnv :=
  { loadRunCode := fun _ => .ok "scope0",
    shell := fun _ => .ok [],
    decodeUtf8 := fun _ => .ok "",
    runAsgi := fun _ => .ok { headers := "h", body := "b", output := "o", output_data := none },
    runExec := fun _ => .error "ClientConnectorError",
    trace := fun e => "Traceback: " ++ e }

/-- A code loader environment in which every path exists and every entrypoint
resolves. -/
def envCode : CodeEnv :=
  { isfile := fun _ => true,
    importResolve := fun m s => some (m ++ "." ++ s),
    execPlain := fun _ ep => some ep }

/-- A decoded configuration map with every required field but no volumes key. -/
def rawNoVolumes : RawConfig :=
  { code := some [], encoding := some "plain", entrypoint := some "main",
    input_data := some [], interface := some "asgi", vm_hash := some "vm",
    volumes := none }

/-- The ASCII digits of 100000000, the smallest 9-digit length header. -/
def nineDigits : Bytes := [49, 48, 48, 48, 48, 48, 48, 48, 48]

/-- A payload of 100000000 identical bytes, matching the nine-digit header. -/
def bigPayload : Bytes := List.replicate 100000000 55


/-! ### List helper lemmas -/

/-- Taking the length of the left part of an append returns that part. -/
theorem take_append_self {α : Type} : ∀ (l1 l2 : List α), (l1 ++ l2).take l1.length = l1 := by
  intro l1
  induction l1 with
  | nil => intro l2; simp
  | cons a t ih => intro l2; simp [ih]

/-- Dropping the length of the left part of an append returns the right part. -/
theorem drop_append_self {α : Type} : ∀ (l1 l2 : List α), (l1 ++ l2).drop l1.length = l2 := by
  intro l1
  induction l1 with
  | nil => intro l2; simp
  | cons a t ih => intro l2; simp [ih]

/-- A take within the left part of an append ignores the right part. -/
theorem take_append_le {α : Type} :
    ∀ (n : Nat) (l1 l2 : List α), n ≤ l1.length → (l1 ++ l2).take n = l1.take n := by
  intro n
  induction n with
  | zero => intro l1 l2 _; simp
  | succ n0 ih =>
    intro l1 l2 h
    cases l1 with
    | nil => simp at h
    | cons a t =>
      simp only [List.cons_append, List.take_succ_cons]
      rw [ih t l2 (by simp at h; omega)]

/-- A drop within the left part of an append keeps the right part intact. -/
theorem drop_append_le {α : Type} :
    ∀ (n : Nat) (l1 l2 : List α), n ≤ l1.length → (l1 ++ l2).drop n = l1.drop n ++ l2 := by
  intro n
  induction n with
  | zero => intro l1 l2 _; simp
  | succ n0 ih =>
    intro l1 l2 h
    cases l1 with
    | nil => simp at h
    | cons a t =>
      simp only [List.cons_append, List.drop_succ_cons]
      exact ih t l2 (by simp at h; omega)

/-- Splitting a take at an intermediate point. -/
theorem takeSplit {α : Type} :
    ∀ (m n : Nat) (l : List α), l.take (m + n) = l.take m ++ (l.drop m).take n := by
  intro m
  induction m with
  | zero => intro n l; simp
  | succ m0 ih =>
    intro n l
    cases l with
    | nil => simp
    | cons a t =>
      have h : m0 + 1 + n = (m0 + n) + 1 := by omega
      rw [h]
      simp only [List.take_succ_cons, List.drop_succ_cons, List.cons_append]
      rw [ih n t]

/-- Composing two drops. -/
theorem dropSplit {α : Type} :
    ∀ (m n : Nat) (l : List α), (l.drop m).drop n = l.drop (m + n) := by
  intro m
  induction m with
  | zero => intro n l; simp
  | succ m0 ih =>
    intro n l
    cases l with
    | nil => simp
    | cons a t =>
      have h : m0 + 1 + n = (m0 + n) + 1 := by omega
      rw [h]
      simp only [List.drop_succ_cons]
      rw [ih n t]


/-! ### Header loop lemmas -/

/-- When the stream holds a block of non-newline bytes shorter than the
iteration bound followed by a newline, the header loop accumulates exactly
that block and consumes the newline. -/
theorem rdlLoop_consume :
    ∀ (ds : Bytes) (k : Nat) (buffer rest : Bytes), ds.length < k →
      (∀ b ∈ ds, b ≠ 10) →
      rdlLoop k buffer (ds ++ 10 :: rest) = (buffer ++ ds, rest) := by
  intro ds
  induction ds with
  | nil =>
    intro k buffer rest hk _
    match k, hk with
    | k0 + 1, _ => simp [rdlLoop]
  | cons d ds ih =>
    intro k buffer rest hk hne
    match k, hk with
    | k0 + 1, hk =>
      have hd : d ≠ 10 := hne d (by simp)
      have hlt : ds.length < k0 := by simp at hk; omega
      have hstep : rdlLoop (k0 + 1) buffer ((d :: ds) ++ 10 :: rest)
          = rdlLoop k0 (buffer ++ [d]) (ds ++ 10 :: rest) := by
        simp [rdlLoop, hd]
      rw [hstep, ih k0 (buffer ++ [d]) rest hlt (fun b hb => hne b (by simp [hb]))]
      simp

/-- When the first k bytes of the stream contain no newline, the header loop
runs out of iterations after consuming exactly k bytes, leaving the rest of
the stream, newline included, pending. -/
theorem rdlLoop_truncate :
    ∀ (k : Nat) (s buffer : Bytes), (∀ b ∈ s.take k, b ≠ 10) →
      rdlLoop k buffer s = (buffer ++ s.take k, s.drop k) := by
  intro k
  induction k with
  | zero => intro s buffer _; simp [rdlLoop]
  | succ k0 ih =>
    intro s buffer hs
    cases s with
    | nil =>
      have h := ih [] buffer (by simp)
      simp [rdlLoop, h]
    | cons b rest =>
      have hb : b ≠ 10 := hs b (by simp)
      have hrest : ∀ x ∈ rest.take k0, x ≠ 10 := by
        intro x hx
        exact hs x (by simp [List.take_succ_cons]; right; exact hx)
      have hstep : rdlLoop (k0 + 1) buffer (b :: rest)
          = rdlLoop k0 (buffer ++ [b]) rest := by
        simp [rdlLoop, hb]
      rw [hstep, ih rest (buffer ++ [b]) hrest]
      simp [List.take_succ_cons, List.drop_succ_cons]


/-! ### Body loop lemmas -/

/-- When the pending bytes hold exactly the announced length, the body loop
accumulates all of them and stops with nothing pending, within any fuel
exceeding the pending count. -/
theorem rcLoop_exact (sched : Nat → Nat) (L : Nat) (hs : ∀ j, 1 ≤ sched j) :
    ∀ (fuel k : Nat) (data pending : Bytes),
      pending.length < fuel → data.length + pending.length = L →
      rcLoop sched L fuel k data pending = some (data ++ pending, []) := by
  intro fuel
  induction fuel with
  | zero => intro k data pending h _; exact absurd h (Nat.not_lt_zero _)
  | succ f ih =>
    intro k data pending hf hL
    by_cases hlt : data.length < L
    · cases pending with
      | nil => simp at hL; omega
      | cons p ps =>
        have hstep : rcLoop sched L (f + 1) k data (p :: ps)
            = rcLoop sched L f (k + 1)
                (data ++ (p :: ps).take (min (1024 * 1024) (sched k)))
                ((p :: ps).drop (min (1024 * 1024) (sched k))) := by
          simp [rcLoop, recvChunk, hlt]
        have hm1 : 1 ≤ min (1024 * 1024) (sched k) := le_min (by norm_num) (hs k)
        have hdl : ((p :: ps).drop (min (1024 * 1024) (sched k))).length < f := by
          simp only [List.length_drop, List.length_cons]
          have hfl : ps.length + 1 < f + 1 := by simpa using hf
          omega
        have hsum : (data ++ (p :: ps).take (min (1024 * 1024) (sched k))).length
            + ((p :: ps).drop (min (1024 * 1024) (sched k))).length = L := by
          simp only [List.length_append, List.length_take, List.length_drop,
            List.length_cons] at hL ⊢
          omega
        rw [hstep, ih (k + 1) _ _ hdl hsum]
        simp [List.append_assoc]
    · have hp0 : pending.length = 0 := by omega
      have hpe : pending = [] := List.length_eq_zero.mp hp0
      subst hpe
      simp [rcLoop, hlt]

/-- When fewer bytes than the announced length will ever arrive, the body
loop never finishes, whatever fuel is allowed: each recv of an exhausted
stream returns nothing and the accumulated data stays short forever. -/
theorem rcLoop_short (sched : Nat → Nat) (L : Nat) :
    ∀ (fuel k : Nat) (data pending : Bytes),
      data.length + pending.length < L →
      rcLoop sched L fuel k data pending = none := by
  intro fuel
  induction fuel with
  | zero => intro k data pending _; simp [rcLoop]
  | succ f ih =>
    intro k data pending hsum
    have hlt : data.length < L := by omega
    have hstep : rcLoop sched L (f + 1) k data pending
        = rcLoop sched L f (k + 1)
            (data ++ pending.take (min (1024 * 1024) (sched k)))
            (pending.drop (min (1024 * 1024) (sched k))) := by
      simp [rcLoop, recvChunk, hlt]
    rw [hstep]
    apply ih
    simp only [List.length_append, List.length_take, List.length_drop]
    omega

/-- Whatever the fragmentation, the body loop only ever accumulates a prefix
of the pending bytes, and when enough bytes are pending it finishes, with at
least the announced length accumulated, within any fuel exceeding the pending
count. -/
theorem rcLoop_prefix (sched : Nat → Nat) (L : Nat) (hs : ∀ j, 1 ≤ sched j) :
    ∀ (fuel k : Nat) (data pending : Bytes),
      pending.length < fuel → L ≤ data.length + pending.length →
      ∃ t, rcLoop sched L fuel k data pending
            = some (data ++ pending.take t, pending.drop t) ∧
          L ≤ data.length + (pending.take t).length := by
  intro fuel
  induction fuel with
  | zero => intro k data pending h _; exact absurd h (Nat.not_lt_zero _)
  | succ f ih =>
    intro k data pending hf hL
    by_cases hlt : data.length < L
    · have hpne : pending ≠ [] := by
        intro h0
        rw [h0] at hL
        simp at hL
        omega
      have hm1 : 1 ≤ min (1024 * 1024) (sched k) := le_min (by norm_num) (hs k)
      have hstep : rcLoop sched L (f + 1) k data pending
          = rcLoop sched L f (k + 1)
              (data ++ pending.take (min (1024 * 1024) (sched k)))
              (pending.drop (min (1024 * 1024) (sched k))) := by
        simp [rcLoop, recvChunk, hlt]
      have hplen : 1 ≤ pending.length := by
        cases pending with
        | nil => exact absurd rfl hpne
        | cons a t => simp
      have hdl : (pending.drop (min (1024 * 1024) (sched k))).length < f := by
        simp only [List.length_drop]
        omega
      have hsum : L ≤ (data ++ pending.take (min (1024 * 1024) (sched k))).length
          + (pending.drop (min (1024 * 1024) (sched k))).length := by
        simp only [List.length_append, List.length_take, List.length_drop]
        omega
      obtain ⟨t2, ht2, hge2⟩ := ih (k + 1) _ _ hdl hsum
      refine ⟨min (1024 * 1024) (sched k) + t2, ?_, ?_⟩
      · rw [hstep, ht2, takeSplit, dropSplit, List.append_assoc]
      · have hlen : (pending.take (min (1024 * 1024) (sched k) + t2)).length
            = (pending.take (min (1024 * 1024) (sched k))).length
              + ((pending.drop (min (1024 * 1024) (sched k))).take t2).length := by
          rw [takeSplit]
          simp
        rw [hlen]
        simp only [List.length_append] at hge2
        omega
    · refine ⟨0, ?_, ?_⟩
      · simp [rcLoop, hlt]
      · simp
        omega


/-! ### Reverse-proxy retry loop lemmas -/

/-- When the port never accepts, the loop runs its full budget: starting from
a tries counter of at most 20, it ends with attempt number 21 failing, having
slept once after each earlier failed attempt. -/
theorem runHttpLoop_never (avail : Nat → Bool) (h : ∀ t, avail t = false) :
    ∀ (n tries sleeps : Nat), tries ≤ 20 → 20 - tries = n →
      runHttpLoop avail tries sleeps
        = { attempts := 21, sleeps := sleeps + (20 - tries), ok := false } := by
  intro n
  induction n with
  | zero =>
    intro tries sleeps h20 hn
    have ht : tries = 20 := by omega
    subst ht
    unfold runHttpLoop
    simp [h 21]
  | succ m ih =>
    intro tries sleeps h20 hn
    unfold runHttpLoop
    rw [h (tries + 1)]
    rw [if_neg (by simp)]
    rw [if_neg (by omega : ¬ tries + 1 > 20)]
    rw [ih (tries + 1) (sleeps + 1) (by omega) (by omega)]
    have harith : sleeps + 1 + (20 - (tries + 1)) = sleeps + (20 - tries) := by omega
    rw [harith]

/-- When attempt k is the first one the port accepts, the loop stops exactly
there, having slept once after each of the k - 1 earlier failed attempts. -/
theorem runHttpLoop_first (avail : Nat → Bool) (k : Nat) (hk21 : k ≤ 21)
    (ha : avail k = true) (hprev : ∀ j, 1 ≤ j → j < k → avail j = false) :
    ∀ (n tries sleeps : Nat), tries + 1 ≤ k → k - (tries + 1) = n →
      runHttpLoop avail tries sleeps
        = { attempts := k, sleeps := sleeps + (k - (tries + 1)), ok := true } := by
  intro n
  induction n with
  | zero =>
    intro tries sleeps h1 hn
    have ht : tries + 1 = k := by omega
    unfold runHttpLoop
    rw [ht, ha, if_pos rfl]
    simp
  | succ m ih =>
    intro tries sleeps h1 hn
    have hlt : tries + 1 < k := by omega
    have hfalse : avail (tries + 1) = false := hprev _ (by omega) hlt
    unfold runHttpLoop
    rw [hfalse]
    rw [if_neg (by simp)]
    rw [if_neg (by omega : ¬ tries + 1 > 20)]
    rw [ih (tries + 1) (sleeps + 1) (by omega) (by omega)]
    have harith : sleeps + 1 + (k - (tries + 1 + 1)) = sleeps + (k - (tries + 1)) := by omega
    rw [harith]


/-! ### Claim C2: reverse-proxy retry bounds -/

/-- C2 counterexample. The claim says the bridge makes at most 20 connection
attempts before propagating the connection error, but with a port that never
opens the loop makes 21 attempts: the tries counter is incremented before
each request and only a failure with tries greater than 20 re-raises, so
attempts 1 through 20 each sleep and retry and the 21st attempt is the one
whose error propagates. -/
theorem retry_attempts_cex :
    (run_executable_http (fun _ => false)).attempts = 21 ∧
    ¬ ((run_executable_http (fun _ => false)).attempts ≤ 20) := by
  have h := runHttpLoop_never (fun _ => false) (fun _ => rfl) 20 0 0 (by omega) (by omega)
  rw [run_executable_http, h]
  exact ⟨rfl, by decide⟩

/-- C2 (amended): if the subprocess never opens its port, the bridge makes
exactly 21 connection attempts — at least 1 and at most 21 — with a 50 ms
sleep after each of the first 20 failures, before propagating the connection
error of the last attempt; and if the port first becomes available at attempt
k within that budget, the bridge succeeds exactly at attempt k. -/
theorem retry_bounds (avail : Nat → Bool) :
    ((∀ t, avail t = false) →
      run_executable_http avail = { attempts := 21, sleeps := 20, ok := false }) ∧
    (∀ k, 1 ≤ k → k ≤ 21 → avail k = true → (∀ j, 1 ≤ j → j < k → avail j = false) →
      run_executable_http avail = { attempts := k, sleeps := k - 1, ok := true }) := by
  constructor
  · intro h
    have hr := runHttpLoop_never avail h 20 0 0 (by omega) (by omega)
    rw [run_executable_http, hr]
  · intro k hk1 hk21 ha hprev
    have hr := runHttpLoop_first avail k hk21 ha hprev (k - 1) 0 0 (by omega) (by omega)
    rw [run_executable_http, hr]
    have harith : 0 + (k - (0 + 1)) = k - 1 := by omega
    rw [harith]

/-- C2 witness: with a port that first accepts at attempt 3, the bridge makes
3 attempts with 2 sleeps and succeeds. -/
theorem retry_bounds_witness :
    run_executable_http (fun t => decide (t = 3))
      = { attempts := 3, sleeps := 2, ok := true } :=
  (retry_bounds (fun t => decide (t = 3))).2 3 (by omega) (by omega) (by decide)
    (fun j _ h2 => decide_eq_false (Nat.ne_of_lt h2))


/-! ### Claim C1: dispatcher error containment -/

/-- C1 counterexample. The claim says any exception raised while decoding the
instruction bytes is caught and converted into an error-shaped response
frame, but msgpack.loads and the RunCodePayload constructor run BEFORE the
try block of process_instruction: on undecodable instruction bytes (here the
reserved msgpack byte 0xc1) the exception escapes the dispatch layer uncaught
and no response frame at all is produced for that instruction. -/
theorem dispatch_decode_uncaught_cex :
    process_instruction envDecodeFail "asgi" [193]
      = { frames := [], sync := false, exits := false,
          uncaught := some "msgpack unpack error" } := rfl

/-- C1 (amended): for a run-code instruction (not halt, not a shell line),
a failure of the instruction decode escapes the dispatch layer uncaught with
no response frame, while after a successful decode exactly one frame is
produced even on bridge failure: a success frame for a bridge result, or an
error frame carrying the exception message, the formatted traceback, and the
still-unset captured output when the bridge raised. -/
theorem dispatch_error_containment (env : DispatchEnv) (itf : String)
    (instr : Bytes) (hhalt : instr ≠ haltBytes) (hshell : instr.head? ≠ some 33) :
    (∀ e, env.loadRunCode instr = .error e →
      process_instruction env itf instr
        = { frames := [], sync := false, exits := false, uncaught := some e }) ∧
    (∀ scope, env.loadRunCode instr = .ok scope →
      ((∃ t, bridgeRun env itf scope = .ok t ∧
          process_instruction env itf instr
            = { frames := [.result t.headers t.body t.output t.output_data],
                sync := false, exits := false, uncaught := none }) ∨
       (∃ e, bridgeRun env itf scope = .error e ∧
          process_instruction env itf instr
            = { frames := [.errorFrame e (env.trace e) none],
                sync := false, exits := false, uncaught := none }))) := by
  constructor
  · intro e he
    simp [process_instruction, if_neg hhalt, if_neg hshell, he]
  · intro scope hscope
    cases hb : bridgeRun env itf scope with
    | ok t =>
      left
      exact ⟨t, rfl, by simp [process_instruction, if_neg hhalt, if_neg hshell, hscope, hb]⟩
    | error e =>
      right
      exact ⟨e, rfl, by simp [process_instruction, if_neg hhalt, if_neg hshell, hscope, hb]⟩

/-- C1 witness: a decode failure leaves no frame and an uncaught exception; a
successful decode whose reverse-proxy bridge raises a connection error still
yields exactly one error-shaped frame. -/
theorem dispatch_error_containment_witness :
    process_instruction envDecodeFail "asgi" [1]
      = { frames := [], sync := false, exits := false,
          uncaught := some "msgpack unpack error" } ∧
    process_instruction envBridge "executable" [1]
      = { frames := [.errorFrame "ClientConnectorError"
            (envBridge.trace "ClientConnectorError") none],
          sync := false, exits := false, uncaught := none } := by
  constructor
  · exact (dispatch_error_containment envDecodeFail "asgi" [1] (by decide)
      (by decide)).1 "msgpack unpack error" rfl
  · rcases (dispatch_error_containment envBridge "executable" [1] (by decide)
      (by decide)).2 "scope0" rfl with ⟨t, ht, hp⟩ | ⟨e, he, hp⟩
    · rw [show bridgeRun envBridge "executable" "scope0"
          = .error "ClientConnectorError" from rfl] at ht
      cases ht
    · rw [show bridgeRun envBridge "executable" "scope0"
          = .error "ClientConnectorError" from rfl] at he
      injection he with he2
      subst he2
      exact hp


/-! ### Claim C6: halt terminality -/

/-- C6: the halt instruction syncs pending filesystem writes, answers with
exactly the fixed STOP frame, and exits the agent, so that no instruction
after halt in a session is ever processed; and the halt branch is the only
instruction outcome that exits the agent. -/
theorem halt_terminal (env : DispatchEnv) (itf : String) (post : List Bytes) :
    run_session env itf (haltBytes :: post)
      = [{ frames := [.raw stopBytes], sync := true, exits := true, uncaught := none }] ∧
    (∀ instr, ((process_instruction env itf instr).exits = true ↔ instr = haltBytes)) := by
  constructor
  · have hh : process_instruction env itf haltBytes
        = { frames := [.raw stopBytes], sync := true, exits := true, uncaught := none } := by
      simp [process_instruction]
    simp [run_session, hh]
  · intro instr
    by_cases h : instr = haltBytes
    · subst h
      simp [process_instruction]
    · have hx : (process_instruction env itf instr).exits = false := by
        simp only [process_instruction, if_neg h]
        by_cases h2 : instr.head? = some 33
        · rw [if_pos h2]
          cases h3 : env.decodeUtf8 (instr.drop 1) with
          | error e => simp [h3]
          | ok msg =>
            cases h4 : env.shell msg with
            | ok out => simp [h3, h4]
            | error eo => simp [h3, h4]
        · rw [if_neg h2]
          cases h3 : env.loadRunCode instr with
          | error e => simp [h3]
          | ok scope =>
            cases h4 : bridgeRun env itf scope with
            | ok t => simp [h3, h4]
            | error e => simp [h3, h4]
      rw [hx]
      simp [h]


/-! ### Claim C3: code loading combinations -/

/-- C3: each of the 6 valid (encoding, interface) combinations yields a
runnable handle — a subprocess handle for the executable interface (given
that the entrypoint file exists after extraction where one is needed) and an
in-process application for the asgi interface (given that the entrypoint
resolves) — while any unknown encoding or unknown interface raises an error
that the setup acknowledgment reports with success False and never as a
success acknowledgment. -/
theorem setup_code_combinations (env : CodeEnv) (code : Bytes) (ep : String) :
    (setup_code env code "plain" ep "executable"
      = .ok (.process ("/opt/executable " ++ ep))) ∧
    (env.isfile ("/opt/" ++ ep) = true →
      setup_code env code "zip" ep "executable" = .ok (.process ("/opt/" ++ ep))) ∧
    (env.isfile ("/opt/code/" ++ ep) = true →
      setup_code env code "squashfs" ep "executable"
        = .ok (.process ("/opt/code/" ++ ep))) ∧
    (∀ a, env.execPlain code ep = some a →
      setup_code env code "plain" ep "asgi" = .ok (.app a)) ∧
    (∀ m s a, splitColon ep = some (m, s) → env.importResolve m s = some a →
      setup_code env code "zip" ep "asgi" = .ok (.app a)) ∧
    (∀ m s a, splitColon ep = some (m, s) → env.importResolve m s = some a →
      setup_code env code "squashfs" ep "asgi" = .ok (.app a)) ∧
    (∀ enc itf, ((enc ≠ "plain" ∧ enc ≠ "zip" ∧ enc ≠ "squashfs") ∨
        (itf ≠ "asgi" ∧ itf ≠ "executable")) →
      ∃ e, setup_code env code enc ep itf = .error e ∧
        setup_ack (setup_code env code enc ep itf)
          = { success := false, error := some e }) := by
  refine ⟨?_, ?_, ?_, ?_, ?_, ?_, ?_⟩
  · simp [setup_code, setup_code_executable]
  · intro hf
    simp [setup_code, setup_code_executable, hf]
  · intro hf
    simp [setup_code, setup_code_executable, hf]
  · intro a ha
    simp [setup_code, setup_code_asgi, ha]
  · intro m s a hsplit hres
    simp [setup_code, setup_code_asgi, hsplit, hres]
  · intro m s a hsplit hres
    simp [setup_code, setup_code_asgi, hsplit, hres]
  · intro enc itf hinv
    by_cases hasgi : itf = "asgi"
    · subst hasgi
      have henc : enc ≠ "plain" ∧ enc ≠ "zip" ∧ enc ≠ "squashfs" := by
        rcases hinv with henc | ⟨hcontra, _⟩
        · exact henc
        · exact absurd rfl hcontra
      refine ⟨"Unknown encoding " ++ enc, ?_, ?_⟩ <;>
        simp [setup_code, setup_code_asgi, setup_ack, henc.1, henc.2.1, henc.2.2]
    · by_cases hexe : itf = "executable"
      · subst hexe
        have henc : enc ≠ "plain" ∧ enc ≠ "zip" ∧ enc ≠ "squashfs" := by
          rcases hinv with henc | ⟨_, hcontra⟩
          · exact henc
          · exact absurd rfl hcontra
        refine ⟨"Unknown encoding " ++ enc ++ ". This should never happen.", ?_, ?_⟩ <;>
          simp [setup_code, setup_code_executable, setup_ack, henc.1, henc.2.1, henc.2.2]
      · refine ⟨"Invalid interface. This should never happen.", ?_, ?_⟩ <;>
          simp [setup_code, setup_ack, hasgi, hexe]

/-- C3 witness: in an environment where every path exists and every
entrypoint resolves, all six valid combinations yield a handle, and an
unknown encoding is reported with success False. -/
theorem setup_code_combinations_witness :
    setup_code envCode [] "plain" "m:a" "executable"
      = .ok (.process "/opt/executable m:a") ∧
    setup_code envCode [] "zip" "m:a" "executable" = .ok (.process "/opt/m:a") ∧
    setup_code envCode [] "squashfs" "m:a" "executable"
      = .ok (.process "/opt/code/m:a") ∧
    setup_code envCode [] "plain" "m:a" "asgi" = .ok (.app "m:a") ∧
    setup_code envCode [] "zip" "m:a" "asgi" = .ok (.app "m.a") ∧
    setup_code envCode [] "squashfs" "m:a" "asgi" = .ok (.app "m.a") ∧
    ∃ e, setup_code envCode [] "tar" "m:a" "asgi" = .error e ∧
      setup_ack (setup_code envCode [] "tar" "m:a" "asgi")
        = { success := false, error := some e } := by
  obtain ⟨h1, h2, h3, h4, h5, h6, h7⟩ := setup_code_combinations envCode [] "m:a"
  exact ⟨h1, h2 rfl, h3 rfl, h4 "m:a" rfl, h5 "m" "a" "m.a" rfl rfl,
    h6 "m" "a" "m.a" rfl rfl, h7 "tar" "asgi" (Or.inl (by decide))⟩


/-! ### Claim C7: network setup without an IP -/

/-- C7 counterexample. The claim says that whenever eth0 exists, loopback is
brought up; but the loopback commands come after the early return on a falsy
ip, so with eth0 present and no IP supplied setup_network performs no effect
at all — in particular the loopback link is never brought up. -/
theorem network_no_ip_cex :
    setup_network true none none [] = [] ∧
    NetEffect.cmd "ip link set lo up" ∉ setup_network true none none [] := by
  constructor
  · rfl
  · simp [setup_network, optTruthy]

/-- C7 (amended): when eth0 exists but no IP was supplied, setup_network
performs nothing at all — no loopback setup, no interface address
assignment, no route installation, no resolver write — and returns normally,
so system setup still completes; loopback is brought up, as the first three
effects, only when eth0 exists and a nonempty IP is supplied. -/
theorem network_no_ip_skips_all (route : Option String) (dns : List String) :
    setup_network true none route dns = [] ∧
    (∀ ip : String, ip ≠ "" →
      (setup_network true (some ip) route dns).take 3 = loopbackCmds) := by
  constructor
  · rfl
  · intro ip hip
    simp only [setup_network, optTruthy]
    rw [show (!(ip == "")) = true by simpa using hip]
    simp [loopbackCmds]

/-- C7 witness: with no IP nothing happens; with an IP the loopback commands
lead the effect list. -/
theorem network_no_ip_skips_all_witness :
    setup_network true none none [] = [] ∧
    (setup_network true (some "172.16.0.2") none []).take 3 = loopbackCmds :=
  ⟨(network_no_ip_skips_all none []).1,
   (network_no_ip_skips_all none []).2 "172.16.0.2" (by decide)⟩


/-! ### Claim C8: cache key validation -/

/-- C8: for the sidecar cache endpoints, a key matching the word pattern is
accepted — the store is reached and the reply is never a 400 — and a key not
matching it (such as one containing a slash, byte 47, or a space, byte 32)
is answered with 400 before any store access, identically for GET, PUT and
DELETE. -/
theorem cache_key_validation (pfx key : Bytes) (store : CacheStore) :
    ((get_from_cache pfx store key).storeAccessed = matchesWordKey key ∧
      ((get_from_cache pfx store key).status = 400 ↔ matchesWordKey key = false)) ∧
    ((put_in_cache pfx key).storeAccessed = matchesWordKey key ∧
      ((put_in_cache pfx key).status = 400 ↔ matchesWordKey key = false)) ∧
    ((delete_from_cache pfx key).storeAccessed = matchesWordKey key ∧
      ((delete_from_cache pfx key).status = 400 ↔ matchesWordKey key = false)) ∧
    matchesWordKey [97, 47, 98] = false ∧ matchesWordKey [97, 32, 98] = false := by
  refine ⟨⟨?_, ?_⟩, ⟨?_, ?_⟩, ⟨?_, ?_⟩, by decide, by decide⟩
  · cases hm : matchesWordKey key with
    | false => simp [get_from_cache, hm]
    | true =>
      simp only [get_from_cache, hm, Bool.not_true]
      rw [if_neg (by simp)]
      split
      · split <;> rfl
      · rfl
  · cases hm : matchesWordKey key with
    | false => simp [get_from_cache, hm]
    | true =>
      simp only [get_from_cache, hm, Bool.not_true]
      rw [if_neg (by simp)]
      constructor
      · intro hst
        revert hst
        split
        · split <;> simp
        · simp
      · intro hst
        simp at hst
  · cases hm : matchesWordKey key <;> simp [put_in_cache, hm]
  · cases hm : matchesWordKey key <;> simp [put_in_cache, hm]
  · cases hm : matchesWordKey key <;> simp [delete_from_cache, hm]
  · cases hm : matchesWordKey key <;> simp [delete_from_cache, hm]


/-! ### Claim C9: configuration decode requires the volumes key -/

/-- C9: load_configuration iterates over the result of msg_.get of the
volumes key, so a decoded configuration map without a volumes key raises
(TypeError on iterating None) even though the ConfigurationPayload dataclass
declares a default empty list for the field; decoding succeeds only when the
sender included volumes, and the successful payload carries exactly them. -/
theorem load_configuration_requires_volumes (m : RawConfig) :
    (m.volumes = none →
      load_configuration m = .error "TypeError: NoneType object is not iterable") ∧
    (∀ c, load_configuration m = .ok c →
      ∃ vols, m.volumes = some vols ∧ c.volumes = vols) := by
  constructor
  · intro h
    simp [load_configuration, h]
  · intro c hc
    cases hv : m.volumes with
    | none =>
      rw [load_configuration, hv] at hc
      simp at hc
    | some vols =>
      refine ⟨vols, rfl, ?_⟩
      simp only [load_configuration, hv] at hc
      split at hc
      · injection hc with h2
        rw [← h2]
      · exact Except.noConfusion hc

/-- C9 witness: a map carrying every required field but no volumes key fails
to decode with the TypeError. -/
theorem load_configuration_requires_volumes_witness :
    load_configuration rawNoVolumes
      = .error "TypeError: NoneType object is not iterable" :=
  (load_configuration_requires_volumes rawNoVolumes).1 rfl


/-! ### Claim C4: length-prefixed reader roundtrip -/

/-- C4 counterexample. The claim covers headers of up to 9 decimal digits,
but the header loop runs at most 9 iterations: a 9-digit header exhausts them
without consuming the terminating newline, which is then read as the first
body byte, so the reconstructed data is not the original payload (here the
data delivered begins with the newline byte 10 while the payload is all 55s,
under a transport that delivers maximal chunks). -/
theorem length_prefixed_reader_nine_digit_cex :
    ∃ data rest,
      receive_config_bytes (fun _ => 1048576) 100000002 (nineDigits ++ 10 :: bigPayload)
        = .ok (some (data, rest)) ∧ data ≠ bigPayload := by
  have htake : (nineDigits ++ 10 :: bigPayload).take 9 = nineDigits := by
    rw [show (9 : Nat) = nineDigits.length from rfl, take_append_self]
  have hdrop : (nineDigits ++ 10 :: bigPayload).drop 9 = 10 :: bigPayload := by
    rw [show (9 : Nat) = nineDigits.length from rfl, drop_append_self]
  have hnl : ∀ b ∈ (nineDigits ++ 10 :: bigPayload).take 9, b ≠ 10 := by
    rw [htake]
    decide
  have h1 := rdlLoop_truncate 9 (nineDigits ++ 10 :: bigPayload) [] hnl
  rw [htake, hdrop] at h1
  have h2 : receive_data_length (nineDigits ++ 10 :: bigPayload)
      = (.ok 100000000, 10 :: bigPayload) := by
    simp only [receive_data_length, h1, List.nil_append, parseDecimal]
    rw [if_pos ⟨by decide, by decide⟩]
    rw [show digitsVal nineDigits = 100000000 from rfl]
  have hplen : (10 :: bigPayload).length = 100000001 := by
    rw [List.length_cons, show bigPayload = List.replicate 100000000 55 from rfl,
        List.length_replicate]
  obtain ⟨t, hres, hge⟩ := rcLoop_prefix (fun _ => 1048576) 100000000
      (fun _ => by norm_num) 100000002 0 [] (10 :: bigPayload)
      (by rw [hplen]; norm_num) (by rw [hplen]; norm_num)
  refine ⟨[] ++ (10 :: bigPayload).take t, (10 :: bigPayload).drop t, ?_, ?_⟩
  · simp only [receive_config_bytes, h2]
    rw [hres]
  · have hge2 : 100000000 ≤ ((10 :: bigPayload).take t).length := by
      rw [List.length_nil, Nat.zero_add] at hge
      exact hge
    have htlen : ((10 :: bigPayload).take t).length ≤ t := by
      rw [List.length_take]
      exact Nat.min_le_left _ _
    obtain ⟨t0, rfl⟩ : ∃ t0, t = t0 + 1 := ⟨t - 1, by omega⟩
    simp only [List.nil_append, List.take_succ_cons]
    have hbp : bigPayload = 55 :: List.replicate 99999999 55 := by
      rw [show bigPayload = List.replicate 100000000 55 from rfl,
          show (100000000 : Nat) = 99999999 + 1 from by norm_num, List.replicate_succ]
    rw [hbp]
    intro heq
    injection heq with h1 h2
    exact absurd h1 (by norm_num)

/-- C4 (amended): for every payload announced by a header of at most 8
decimal digits — the ASCII decimal length, one newline, then exactly that
many payload bytes — the length-prefixed reader reconstructs exactly the
original payload bytes with nothing left pending, regardless of how the
transport fragments the stream into partial reads; with a 9-digit header the
newline is not consumed and corrupts the reconstruction. -/
theorem length_prefixed_reader_roundtrip (sched : Nat → Nat) (ds payload : Bytes)
    (hds : ∀ b ∈ ds, isDigit b = true) (hne : ds ≠ []) (hlen : ds.length ≤ 8)
    (hval : digitsVal ds = payload.length) (hs : ∀ j, 1 ≤ sched j) :
    receive_config_bytes sched (payload.length + 1) (ds ++ 10 :: payload)
      = .ok (some (payload, [])) := by
  have hne10 : ∀ b ∈ ds, b ≠ 10 := by
    intro b hb
    have h2 := hds b hb
    simp only [isDigit, Bool.and_eq_true, decide_eq_true_eq] at h2
    omega
  have h1 : rdlLoop 9 [] (ds ++ 10 :: payload) = ([] ++ ds, payload) :=
    rdlLoop_consume ds 9 [] payload (by omega) hne10
  have hall : ds.all isDigit = true := List.all_eq_true.mpr hds
  have h2 : receive_data_length (ds ++ 10 :: payload) = (.ok payload.length, payload) := by
    simp only [receive_data_length, h1, List.nil_append, parseDecimal]
    rw [if_pos ⟨hne, hall⟩, hval]
  simp only [receive_config_bytes, h2]
  rw [rcLoop_exact sched payload.length hs (payload.length + 1) 0 [] payload
      (by omega) (by simp)]
  simp

/-- C4 witness: the 1-digit header 5, a newline, and a 5-byte payload are
reconstructed exactly under a transport delivering 2 bytes per read. -/
theorem length_prefixed_reader_roundtrip_witness :
    receive_config_bytes (fun _ => 2) 6 ([53] ++ 10 :: [1, 2, 3, 4, 5])
      = .ok (some ([1, 2, 3, 4, 5], [])) :=
  length_prefixed_reader_roundtrip (fun _ => 2) [53] [1, 2, 3, 4, 5]
    (by decide) (by decide) (by decide) (by decide) (fun _ => by norm_num)


/-! ### Claim C5: over-long length header -/

/-- C5 counterexample. The claim says a length header of more than 9 decimal
digits is treated as a fatal protocol error, but on the 10-digit header
1234567890 followed by a newline the receiver raises nothing: it accepts the
truncated 9-digit value 123456789 and leaves the tenth digit and the newline
pending. -/
theorem long_header_cex :
    receive_data_length [49, 50, 51, 52, 53, 54, 55, 56, 57, 48, 10]
      = (.ok 123456789, [48, 10]) := rfl

/-- C5 (amended): a header of 9 or more digits before the newline is not an
error: the receiver reads exactly the first 9 bytes, accepts their decimal
value as the length, and leaves every remaining header byte — the newline
included — pending as body data. -/
theorem long_header_truncation (ds rest : Bytes)
    (hds : ∀ b ∈ ds, isDigit b = true) (hlen : 9 ≤ ds.length) :
    receive_data_length (ds ++ rest)
      = (.ok (digitsVal (ds.take 9)), ds.drop 9 ++ rest) := by
  have htake : (ds ++ rest).take 9 = ds.take 9 := take_append_le 9 ds rest hlen
  have hdrop : (ds ++ rest).drop 9 = ds.drop 9 ++ rest := drop_append_le 9 ds rest hlen
  have hnl : ∀ b ∈ (ds ++ rest).take 9, b ≠ 10 := by
    rw [htake]
    intro b hb
    have h2 := hds b (List.take_subset 9 ds hb)
    simp only [isDigit, Bool.and_eq_true, decide_eq_true_eq] at h2
    omega
  have h1 := rdlLoop_truncate 9 (ds ++ rest) [] hnl
  rw [htake, hdrop] at h1
  have hne : ds.take 9 ≠ [] := by
    have h9 : (ds.take 9).length = 9 := by
      rw [List.length_take]
      omega
    intro h0
    rw [h0] at h9
    simp at h9
  have hall : (ds.take 9).all isDigit = true :=
    List.all_eq_true.mpr (fun b hb => hds b (List.take_subset 9 ds hb))
  simp only [receive_data_length, h1, List.nil_append, parseDecimal]
  rw [if_pos ⟨hne, hall⟩]

/-- C5 witness: the 10-digit header with a newline parses, without error, to
the truncated value of its first 9 digits, newline unconsumed. -/
theorem long_header_truncation_witness :
    receive_data_length ([49, 50, 51, 52, 53, 54, 55, 56, 57, 48] ++ [10])
      = (.ok (digitsVal ([49, 50, 51, 52, 53, 54, 55, 56, 57, 48].take 9)),
         [49, 50, 51, 52, 53, 54, 55, 56, 57, 48].drop 9 ++ [10]) :=
  long_header_truncation [49, 50, 51, 52, 53, 54, 55, 56, 57, 48] [10]
    (by decide) (by decide)


/-! ### Claim C10: body loop termination -/

/-- C10: the receive_config body loop terminates exactly when at least the
announced number of bytes eventually arrives on the connection; when the peer
closes the connection earlier, each recv returns the empty byte string, the
accumulated data stays short, and the loop never finishes within any number
of iterations — the agent hangs during setup instead of failing. -/
theorem receive_config_termination (sched : Nat → Nat) (L : Nat) (pending : Bytes)
    (hs : ∀ j, 1 ≤ sched j) :
    ((∃ fuel out rest, rcLoop sched L fuel 0 [] pending = some (out, rest)) ↔
      L ≤ pending.length) ∧
    (pending.length < L → ∀ fuel, rcLoop sched L fuel 0 [] pending = none) := by
  have hshort : pending.length < L → ∀ fuel, rcLoop sched L fuel 0 [] pending = none := by
    intro h fuel
    exact rcLoop_short sched L fuel 0 [] pending (by simpa using h)
  refine ⟨⟨?_, ?_⟩, hshort⟩
  · rintro ⟨fuel, out, rest, hres⟩
    by_contra hc
    push_neg at hc
    rw [hshort hc fuel] at hres
    exact Option.noConfusion hres
  · intro hL
    obtain ⟨t, ht, _⟩ := rcLoop_prefix sched L hs (pending.length + 1) 0 [] pending
      (by omega) (by simpa using hL)
    exact ⟨pending.length + 1, _, _, ht⟩

/-- C10 witness: two pending bytes against an announced length of five means
no fuel ever finishes the loop, and the termination equivalence instantiates
to the false inequality. -/
theorem receive_config_termination_witness :
    ((∃ fuel out rest, rcLoop (fun _ => 1) 5 fuel 0 [] [7, 7] = some (out, rest)) ↔
      5 ≤ ([7, 7] : Bytes).length) ∧
    (([7, 7] : Bytes).length < 5 → ∀ fuel, rcLoop (fun _ => 1) 5 fuel 0 [] [7, 7] = none) :=
  receive_config_termination (fun _ => 1) 5 [7, 7] (fun _ => Nat.le_refl 1)

end AlephVM
